import Mathlib

/-!
Verification of the Blink_WebCam browser-side dashboard scripts.

Shallow embedding of the logic in `static/js/camera.js`,
`static/js/camera-refresh.js` and `static/js/snooze.js`.  JavaScript
numbers appearing in time arithmetic are modelled as `ℚ` (exact rational
arithmetic; all quantities involved are sums, differences, products and
divisions of integers, on which JS doubles and `ℚ` agree in the ranges
exercised here), integer-valued quantities as `Int`/`Nat`, strings as
`String`/`List Char`, and `parseInt` results (possibly `NaN`) as
`Option Int`.
-/

namespace Blink

/-! ### Staleness evaluator (camera.js, `checkForStaleImages`) -/

/-- Age of an image in minutes, from timestamps in milliseconds:
`const ageMinutes = (now - imageTime) / (1000 * 60)` (camera.js line 156). -/
def ageMinutesOf (nowMs capturedAtMs : ℚ) : ℚ :=
  (nowMs - capturedAtMs) / (1000 * 60)

/-- Core decision of `checkForStaleImages` (camera.js lines 124-125, 159):
`staleThreshold = pollInterval * 3` and the card is marked stale when
`ageMinutes > staleThreshold`. -/
def checkForStaleImages (pollIntervalMinutes ageMinutes : ℚ) : Bool :=
  decide (ageMinutes > pollIntervalMinutes * 3)

/-- `formatTimeAgo` (camera.js lines 212-222): `Math.floor` truncation in
all three branches. -/
def formatTimeAgo (minutes : ℚ) : String :=
  if minutes < 60 then
    (⌊minutes⌋).repr ++ "m ago"
  else if minutes < 1440 then
    (⌊minutes / 60⌋).repr ++ "h ago"
  else
    (⌊minutes / 1440⌋).repr ++ "d ago"

/-! ### Snooze countdown tick (snooze.js, `updateSnoozeCountdowns`) -/

/-- What one tick of `updateSnoozeCountdowns` does for a single badge:
either trigger a full state resynchronization (`location.reload()`) or
render a countdown text. -/
inductive CountdownAction
  | resync
  | render (text : String)
deriving DecidableEq, Repr

/-- `const diffMs = expiry - now` (snooze.js line 362). -/
def snoozeDiffMs (expiryMs nowMs : Int) : Int :=
  expiryMs - nowMs

/-- Per-badge body of `updateSnoozeCountdowns` (snooze.js lines 364-380).
For positive `diffMs`, `Math.floor (diffMs / 1000)` equals Nat division of
`diffMs.toNat` by `1000`. -/
def updateSnoozeCountdown (diffMs : Int) : CountdownAction :=
  if diffMs ≤ 0 then
    CountdownAction.resync
  else
    let totalSeconds := diffMs.toNat / 1000
    let hours := totalSeconds / 3600
    let minutes := (totalSeconds % 3600) / 60
    let seconds := totalSeconds % 60
    if hours > 0 then
      CountdownAction.render
        (hours.repr ++ "h " ++ minutes.repr ++ "m " ++ seconds.repr ++ "s left")
    else if minutes > 0 then
      CountdownAction.render (minutes.repr ++ "m " ++ seconds.repr ++ "s left")
    else
      CountdownAction.render (seconds.repr ++ "s left")

/-! ### Poll orchestrator (camera-refresh.js, `refreshCameras`)

The page is single-threaded and event-driven: timer firings and network
completions interleave on one logical thread.  A trace is a list of such
events.  `trigger` is an invocation of `refreshCameras` (timer or manual);
`complete` is the resumption of an in-flight cycle reaching its `finally`
block (which runs on success and on every failure alike). -/

structure PollState where
  /-- the module-level `refreshInProgress` boolean (line 9) -/
  inFlight : Bool
  /-- number of refresh cycles currently outstanding -/
  active : Nat
  /-- total number of cycles that passed the guard and started -/
  started : Nat
  /-- number of triggers skipped by the guard (lines 13-16) -/
  skipped : Nat
deriving DecidableEq, Repr

inductive PollEv
  | trigger
  | complete
deriving DecidableEq, Repr

/-- One event step. A `trigger` with the guard set is a pure skip
(lines 13-16); with the guard clear it sets the guard and starts a cycle
(line 18).  A `complete` finishes an outstanding cycle and clears the
guard in `finally` (lines 106-108); with no outstanding cycle it is a
no-op. -/
def pollStep (s : PollState) : PollEv → PollState
  | PollEv.trigger =>
    if s.inFlight then
      { s with skipped := s.skipped + 1 }
    else
      { s with inFlight := true, active := s.active + 1, started := s.started + 1 }
  | PollEv.complete =>
    if s.active = 0 then s
    else { s with inFlight := false, active := s.active - 1 }

/-- Page-load state: `refreshInProgress = false`, nothing outstanding. -/
def pollInit : PollState :=
  { inFlight := false, active := 0, started := 0, skipped := 0 }

def pollRun (evs : List PollEv) : PollState :=
  evs.foldl pollStep pollInit

/-- Reachability invariant of the poll loop. -/
def PollInv (s : PollState) : Prop :=
  s.active ≤ 1 ∧ (s.inFlight = true ↔ s.active = 1)

/-! ### One whole invocation of `refreshCameras` with its outcome (C10) -/

/-- The ways the `try` block of `refreshCameras` can end: the `fetch`
promise rejects, `!response.ok` throws (line 33), `!data.success` throws
(line 39), or the cycle succeeds. -/
inductive FetchOutcome
  | reject
  | non2xx
  | bodyFailure
  | success
deriving DecidableEq, Repr

/-- Result of the `try` block of `refreshCameras` (lines 23-102). -/
def tryRefreshBody : FetchOutcome → Except String Unit
  | FetchOutcome.reject => Except.error "fetch rejected"
  | FetchOutcome.non2xx => Except.error "HTTP error"
  | FetchOutcome.bodyFailure => Except.error "Failed to refresh cameras"
  | FetchOutcome.success => Except.ok ()

/-- One invocation of `refreshCameras` (lines 11-109) as a function of the
initial `refreshInProgress` flag and the outcome of its `try` block.
Returns `(a cycle ran, refreshInProgress afterwards)`.  The guard path
returns early leaving the flag untouched; on both the `ok` and the
`error` path of the body the `catch` only logs and the `finally` clause
(lines 106-108) clears the flag. -/
def refreshCameras (refreshInProgress0 : Bool) (o : FetchOutcome) : Bool × Bool :=
  if refreshInProgress0 then
    (false, refreshInProgress0)
  else
    match tryRefreshBody o with
    | Except.ok _ => (true, false)
    | Except.error _ => (true, false)

/-! ### Image-list reconciler (camera-refresh.js) -/

/-- `arraysEqual` (camera-refresh.js lines 344-352): length check, then
element-wise index comparison. -/
def arraysEqual (arr1 arr2 : List String) : Bool :=
  if arr1.length ≠ arr2.length then false
  else (arr1.zip arr2).all fun p => p.1 == p.2

/-- Reconciliation core of `updateCameraImages` (lines 249-301):
`hasNewImages = !arraysEqual(camera.images, existingPaths)`; if no change
is detected the function returns `false` without touching the DOM,
otherwise it discards the old elements, rebuilds them from
`camera.images` and returns `true`.  Result: `(imagesUpdated, displayed
image paths afterwards)`. -/
def updateCameraImages (cameraImages existingPaths : List String) : Bool × List String :=
  let hasNewImages := ! arraysEqual cameraImages existingPaths
  if ! hasNewImages then (false, existingPaths)
  else (true, cameraImages)

/-! ### Snooze duration selection (snooze.js, `applySnooze` / `applySnoozeAll`) -/

/-- JS truthiness of a duration value: `null` and `NaN` are modelled as
`none`, and `0` is falsy. -/
def jsTruthy : Option Int → Bool
  | none => false
  | some v => decide (v ≠ 0)

/-- Duration-selection logic shared verbatim by `applySnooze` (snooze.js
lines 61-75) and `applySnoozeAll` (lines 153-165):

`let duration = selected; if (!duration) { const cv = parseInt(input);
if (cv && cv > 0) duration = cv; } if (!duration) { alert(...); return; }`

`selected` is the preset selection (`null` when empty), `customParsed`
the `parseInt` of the custom input (`none` for `NaN`).  Returns the
`duration_minutes` sent to the backend, or `none` when submission is
blocked and no request is issued. -/
def snoozeDurationOf (selected customParsed : Option Int) : Option Int :=
  let duration0 := selected
  let duration1 :=
    if jsTruthy duration0 then duration0
    else
      match customParsed with
      | some customValue =>
        if jsTruthy (some customValue) && decide (customValue > 0) then
          some customValue
        else duration0
      | none => duration0
  if jsTruthy duration1 then duration1 else none

/-! ### Timestamp extraction (camera.js, `updateImageTimestamp` /
`checkForStaleImages` / `parseImageTimestamp`) -/

/-- JS `\d` is exactly `[0-9]`. -/
def isDigitC (c : Char) : Bool := c.isDigit

def digitVal (c : Char) : Nat := c.toNat - 48

/-- Numeric value of a string of decimal digits (what JS `parseInt` and
implicit numeric coercion compute on an all-digit string). -/
def parseDigits (cs : List Char) : Nat :=
  cs.foldl (fun a c => a * 10 + digitVal c) 0

/-- Leftmost match of the JS regex `_(\d{8})_(\d{6})` against a string
(camera.js lines 78 and 139): the first position holding `'_'`, eight
digits, `'_'`, six digits wins; on failure the engine retries at the next
position.  Both repetitions are of fixed length, so no backtracking
arises.  Returns the two capture groups. -/
def tsMatch : List Char → Option (List Char × List Char)
  | [] => none
  | c :: rest =>
    if c = '_' ∧ (rest.take 8).length = 8 ∧ (rest.take 8).all isDigitC then
      match rest.drop 8 with
      | '_' :: rest2 =>
        if (rest2.take 6).length = 6 ∧ (rest2.take 6).all isDigitC then
          some (rest.take 8, rest2.take 6)
        else tsMatch rest
      | _ => tsMatch rest
    else tsMatch rest

/-- 12-hour time formatting of `updateImageTimestamp` (camera.js lines
87-95): `ampm = hours >= 12 ? 'PM' : 'AM'; hours %= 12; hours = hours ?
hours : 12;` then `` `${hours}:${minutes}:${seconds} ${ampm}` ``. -/
def formatTime12 (hours0 : Nat) (minutes seconds : String) : String :=
  let ampm := if hours0 ≥ 12 then "PM" else "AM"
  let h1 := hours0 % 12
  let hours := if h1 = 0 then 12 else h1
  hours.repr ++ ":" ++ minutes ++ ":" ++ seconds ++ " " ++ ampm

/-- Success branch of `updateImageTimestamp` (camera.js lines 80-98):
substring slicing of the two capture groups and
`` `${month}/${day}/${year} ${formattedTime}` ``. -/
def formatTimestampText (d8 d6 : List Char) : String :=
  let year := String.mk (d8.take 4)
  let month := String.mk ((d8.drop 4).take 2)
  let day := String.mk ((d8.drop 6).take 2)
  let hours0 := parseDigits (d6.take 2)
  let minutes := String.mk ((d6.drop 2).take 2)
  let seconds := String.mk ((d6.drop 4).take 2)
  (month ++ "/" ++ day ++ "/" ++ year) ++ " " ++ formatTime12 hours0 minutes seconds

/-- `updateImageTimestamp` (camera.js lines 74-102): the text written to
the timestamp element (placeholder "Unknown time" when the regex does not
match). -/
def updateImageTimestamp (filename : String) : String :=
  match tsMatch filename.data with
  | some (d8, d6) => formatTimestampText d8 d6
  | none => "Unknown time"

/-- Calendar fields of a JS `Date(year, monthIndex, day, hour, minute,
second)` constructed from in-range arguments (no normalization occurs
then).  `monthIndex` is an `Int` because JS computes `month - 1`. -/
structure DateFields where
  year : Nat
  monthIndex : Int
  day : Nat
  hour : Nat
  minute : Nat
  second : Nat
deriving DecidableEq, Repr

/-- The `Date` built from the two capture groups, as in
`checkForStaleImages` (camera.js lines 142-153): `new Date(year,
month - 1, day, hours, minutes, seconds)`. -/
def imageTimeFields (d8 d6 : List Char) : DateFields :=
  { year := parseDigits (d8.take 4)
    monthIndex := (parseDigits ((d8.drop 4).take 2) : Int) - 1
    day := parseDigits ((d8.drop 6).take 2)
    hour := parseDigits (d6.take 2)
    minute := parseDigits ((d6.drop 2).take 2)
    second := parseDigits ((d6.drop 4).take 2) }

/-- JS `\s` restricted to the whitespace that can occur here. -/
def isSpaceC (c : Char) : Bool :=
  c == ' ' || c == '\t' || c == '\n' || c == '\r'

/-- Greedy digit group of the parse regex.  Every digit group in
`parseImageTimestamp`'s regex is followed by a non-digit literal (`/`,
`:`, `\s`), so the greedy `\d{lo,hi}` with backtracking succeeds exactly
when the maximal leading digit run has length between `lo` and `hi`: a
shorter attempt would have to match that literal against a digit. -/
def eatDigits (lo hi : Nat) (cs : List Char) : Option (Nat × List Char) :=
  let ds := cs.takeWhile isDigitC
  if lo ≤ ds.length ∧ ds.length ≤ hi then some (parseDigits ds, cs.dropWhile isDigitC)
  else none

def eatChar (c : Char) : List Char → Option (List Char)
  | x :: rest => if x = c then some rest else none
  | [] => none

/-- Greedy `\s+`; both occurrences are followed by a digit or `A`/`P`,
never by whitespace, so the maximal run is the only viable choice. -/
def eatSpaces (cs : List Char) : Option (List Char) :=
  if 1 ≤ (cs.takeWhile isSpaceC).length then some (cs.dropWhile isSpaceC) else none

def eatAmPm : List Char → Option Bool
  | 'A' :: 'M' :: _ => some false
  | 'P' :: 'M' :: _ => some true
  | _ => none

/-- Capture groups of
`(\d{1,2})\/(\d{1,2})\/(\d{4})\s+(\d{1,2}):(\d{2}):(\d{2})\s+(AM|PM)`
(camera.js line 196); `pm` is true for `PM`. -/
structure ParsedTS where
  month : Nat
  day : Nat
  year : Nat
  hour12 : Nat
  minute : Nat
  second : Nat
  pm : Bool
deriving DecidableEq, Repr

/-- The parse regex matched at one fixed start position. -/
def matchTSAt (cs : List Char) : Option ParsedTS :=
  (eatDigits 1 2 cs).bind fun p1 =>
  (eatChar '/' p1.2).bind fun r2 =>
  (eatDigits 1 2 r2).bind fun p2 =>
  (eatChar '/' p2.2).bind fun r4 =>
  (eatDigits 4 4 r4).bind fun p3 =>
  (eatSpaces p3.2).bind fun r6 =>
  (eatDigits 1 2 r6).bind fun p4 =>
  (eatChar ':' p4.2).bind fun r8 =>
  (eatDigits 2 2 r8).bind fun p5 =>
  (eatChar ':' p5.2).bind fun r10 =>
  (eatDigits 2 2 r10).bind fun p6 =>
  (eatSpaces p6.2).bind fun r12 =>
  (eatAmPm r12).map fun pm =>
  { month := p1.1, day := p2.1, year := p3.1, hour12 := p4.1,
    minute := p5.1, second := p6.1, pm := pm }

/-- Leftmost (unanchored) search, as JS `String.prototype.match`. -/
def searchTS : List Char → Option ParsedTS
  | [] => none
  | c :: rest =>
    match matchTSAt (c :: rest) with
    | some t => some t
    | none => searchTS rest

/-- Hour conversion of `parseImageTimestamp` (camera.js lines 202-203):
`if (ampm === 'PM' && hour !== 12) hour += 12; if (ampm === 'AM' && hour
=== 12) hour = 0;`. -/
def convert12to24 (hour12 : Nat) (pm : Bool) : Nat :=
  if pm then (if hour12 ≠ 12 then hour12 + 12 else hour12)
  else (if hour12 = 12 then 0 else hour12)

/-- `parseImageTimestamp` (camera.js lines 193-210): parse
"MM/DD/YYYY HH:MM:SS AM/PM" text back into `Date` fields, `null` on no
match. -/
def parseImageTimestamp (timestampText : String) : Option DateFields :=
  match searchTS timestampText.data with
  | none => none
  | some t =>
    some { year := t.year, monthIndex := (t.month : Int) - 1, day := t.day,
           hour := convert12to24 t.hour12 t.pm, minute := t.minute, second := t.second }

/-! ### Final path segment (C7) -/

/-- `src.split('/').pop()` (camera.js lines 39, 113, 136): the suffix
after the last `'/'`, computed as the JS split does — scanning left to
right and restarting the current segment after each separator. -/
def lastSegment (s : String) : String :=
  String.mk (s.data.foldl (fun acc c => if c = '/' then [] else acc ++ [c]) [])

/-- Timestamp extraction along the fallback operand only: when
`dataset.filename` is absent or empty, the final path segment of the
image `src` is handed to the `_(\d{8})_(\d{6})` match. -/
def extractTimestampFromSrc (src : String) : Option (List Char × List Char) :=
  tsMatch (lastSegment src).data

/-- Filename selection of `switchImage`, the DOMContentLoaded
initializer and `checkForStaleImages` (camera.js lines 39, 113, 136):
`img.dataset.filename || img.src.split('/').pop()`.  The
`dataset.filename` value — set to the raw backend image path at
camera-refresh.js line 298, which may contain `/` for date-organized
folders — takes priority whenever present and non-empty (JS truthiness
of a string); the split of `src` is only the fallback. -/
def filenameForTimestamp (datasetFilename : Option String) (src : String) : String :=
  match datasetFilename with
  | some f => if f.data ≠ [] then f else lastSegment src
  | none => lastSegment src

/-! ### Helper lemmas -/

theorem strData_append (a b : String) : (a ++ b).data = a.data ++ b.data := rfl

theorem strData_mk (l : List Char) : (String.mk l).data = l := rfl

theorem strMk_data (s : String) : String.mk s.data = s := rfl

theorem isDigit_not_isSpace {c : Char} (h : isDigitC c = true) : isSpaceC c = false := by
  simp only [isSpaceC, Bool.or_eq_false_iff, beq_eq_false_iff_ne, ne_eq]
  refine ⟨⟨⟨?_, ?_⟩, ?_⟩, ?_⟩ <;> rintro rfl <;> exact absurd h (by decide)

theorem takeWhile_append_all {p : Char → Bool} (A B : List Char) (hA : A.all p = true)
    (hB : ∀ c rest, B = c :: rest → p c = false) :
    (A ++ B).takeWhile p = A ∧ (A ++ B).dropWhile p = B := by
  induction A with
  | nil =>
    simp only [List.nil_append]
    cases B with
    | nil => simp
    | cons c rest =>
      have hc := hB c rest rfl
      simp [List.takeWhile_cons, List.dropWhile_cons, hc]
  | cons a A' ih =>
    simp only [List.all_cons, Bool.and_eq_true] at hA
    have h' := ih hA.2
    constructor
    · rw [List.cons_append, List.takeWhile_cons, if_pos hA.1, h'.1]
    · rw [List.cons_append, List.dropWhile_cons, if_pos hA.1, h'.2]

theorem eatDigits_append (lo hi : Nat) (A B : List Char) (hA : A.all isDigitC = true)
    (hlo : lo ≤ A.length) (hhi : A.length ≤ hi)
    (hB : ∀ c rest, B = c :: rest → isDigitC c = false) :
    eatDigits lo hi (A ++ B) = some (parseDigits A, B) := by
  obtain ⟨ht, hd⟩ := takeWhile_append_all A B hA hB
  simp [eatDigits, ht, hd, hlo, hhi]

theorem eatChar_cons (c : Char) (rest : List Char) : eatChar c (c :: rest) = some rest := by
  simp [eatChar]

theorem eatSpaces_cons_space (B : List Char)
    (hB : ∀ c rest, B = c :: rest → isSpaceC c = false) :
    eatSpaces (' ' :: B) = some B := by
  have h := takeWhile_append_all (p := isSpaceC) [' '] B (by decide) hB
  simp only [List.singleton_append] at h
  simp [eatSpaces, h.1, h.2]

theorem head_cons_false {p : Char → Bool} {c0 : Char} (h : p c0 = false) (B : List Char) :
    ∀ c rest, (c0 :: B) = c :: rest → p c = false := by
  intro c rest h'
  obtain ⟨rfl, -⟩ := List.cons_eq_cons.mp h'
  exact h

theorem head_digit_of_append {A : List Char} (B : List Char) (hA : A.all isDigitC = true)
    (hlen : 1 ≤ A.length) :
    ∀ c rest, A ++ B = c :: rest → isDigitC c = true := by
  cases A with
  | nil => simp at hlen
  | cons a A' =>
    intro c rest h
    rw [List.cons_append] at h
    obtain ⟨rfl, -⟩ := List.cons_eq_cons.mp h
    simp only [List.all_cons, Bool.and_eq_true] at hA
    exact hA.1

theorem head_notSpace_of_digits {A : List Char} (B : List Char) (hA : A.all isDigitC = true)
    (hlen : 1 ≤ A.length) :
    ∀ c rest, A ++ B = c :: rest → isSpaceC c = false :=
  fun c rest h => isDigit_not_isSpace (head_digit_of_append B hA hlen c rest h)

theorem repr_hour_facts (n : Nat) (h1 : 1 ≤ n) (h2 : n ≤ 12) :
    (Nat.repr n).data.all isDigitC = true ∧ 1 ≤ (Nat.repr n).data.length ∧
      (Nat.repr n).data.length ≤ 2 ∧ parseDigits (Nat.repr n).data = n := by
  interval_cases n <;> exact ⟨by decide, by decide, by decide, by decide⟩

theorem convert12to24_roundtrip (H : Nat) (hH : H ≤ 23) :
    convert12to24 (if H % 12 = 0 then 12 else H % 12) (decide (12 ≤ H)) = H := by
  interval_cases H <;> decide

theorem searchTS_of_matchAt {cs : List Char} {t : ParsedTS} (hne : cs ≠ [])
    (h : matchTSAt cs = some t) : searchTS cs = some t := by
  cases cs with
  | nil => exact absurd rfl hne
  | cons c rest => simp [searchTS, h]

theorem all_take {p : Char → Bool} (l : List Char) (n : Nat) (h : l.all p = true) :
    (l.take n).all p = true := by
  simp only [List.all_eq_true] at *
  exact fun c hc => h c (List.mem_of_mem_take hc)

theorem all_drop {p : Char → Bool} (l : List Char) (n : Nat) (h : l.all p = true) :
    (l.drop n).all p = true := by
  simp only [List.all_eq_true] at *
  exact fun c hc => h c (List.mem_of_mem_drop hc)

theorem matchTSAt_format (mo dy yr hr mi se ap : List Char)
    (hmo : mo.all isDigitC = true) (hmolen : mo.length = 2)
    (hdy : dy.all isDigitC = true) (hdylen : dy.length = 2)
    (hyr : yr.all isDigitC = true) (hyrlen : yr.length = 4)
    (hhr : hr.all isDigitC = true) (hhrlen1 : 1 ≤ hr.length) (hhrlen2 : hr.length ≤ 2)
    (hmi : mi.all isDigitC = true) (hmilen : mi.length = 2)
    (hse : se.all isDigitC = true) (hselen : se.length = 2)
    (hap : ap = ['A', 'M'] ∨ ap = ['P', 'M']) :
    matchTSAt
        (mo ++ '/' :: (dy ++ '/' :: (yr ++ ' ' :: (hr ++ ':' :: (mi ++ ':' :: (se ++ ' ' :: ap))))))
      = some { month := parseDigits mo, day := parseDigits dy, year := parseDigits yr,
               hour12 := parseDigits hr, minute := parseDigits mi, second := parseDigits se,
               pm := decide (ap = ['P', 'M']) } := by
  have hapHead : ∀ c rest, ap = c :: rest → isSpaceC c = false := by
    rcases hap with rfl | rfl <;> exact head_cons_false (by decide) _
  have e13 : eatAmPm ap = some (decide (ap = ['P', 'M'])) := by
    rcases hap with rfl | rfl <;> decide
  have e12 : eatSpaces (' ' :: ap) = some ap := eatSpaces_cons_space ap hapHead
  have e11 : eatDigits 2 2 (se ++ ' ' :: ap) = some (parseDigits se, ' ' :: ap) :=
    eatDigits_append 2 2 se (' ' :: ap) hse (by omega) (by omega)
      (head_cons_false (by decide) _)
  have e10 : eatChar ':' (':' :: (se ++ ' ' :: ap)) = some (se ++ ' ' :: ap) :=
    eatChar_cons _ _
  have e9 : eatDigits 2 2 (mi ++ ':' :: (se ++ ' ' :: ap))
      = some (parseDigits mi, ':' :: (se ++ ' ' :: ap)) :=
    eatDigits_append 2 2 mi _ hmi (by omega) (by omega) (head_cons_false (by decide) _)
  have e8 : eatChar ':' (':' :: (mi ++ ':' :: (se ++ ' ' :: ap)))
      = some (mi ++ ':' :: (se ++ ' ' :: ap)) := eatChar_cons _ _
  have e7 : eatDigits 1 2 (hr ++ ':' :: (mi ++ ':' :: (se ++ ' ' :: ap)))
      = some (parseDigits hr, ':' :: (mi ++ ':' :: (se ++ ' ' :: ap))) :=
    eatDigits_append 1 2 hr _ hhr hhrlen1 hhrlen2 (head_cons_false (by decide) _)
  have e6 : eatSpaces (' ' :: (hr ++ ':' :: (mi ++ ':' :: (se ++ ' ' :: ap))))
      = some (hr ++ ':' :: (mi ++ ':' :: (se ++ ' ' :: ap))) :=
    eatSpaces_cons_space _ (head_notSpace_of_digits _ hhr hhrlen1)
  have e5 : eatDigits 4 4 (yr ++ ' ' :: (hr ++ ':' :: (mi ++ ':' :: (se ++ ' ' :: ap))))
      = some (parseDigits yr, ' ' :: (hr ++ ':' :: (mi ++ ':' :: (se ++ ' ' :: ap)))) :=
    eatDigits_append 4 4 yr _ hyr (by omega) (by omega) (head_cons_false (by decide) _)
  have e4 : eatChar '/' ('/' :: (yr ++ ' ' :: (hr ++ ':' :: (mi ++ ':' :: (se ++ ' ' :: ap)))))
      = some (yr ++ ' ' :: (hr ++ ':' :: (mi ++ ':' :: (se ++ ' ' :: ap)))) := eatChar_cons _ _
  have e3 : eatDigits 1 2
        (dy ++ '/' :: (yr ++ ' ' :: (hr ++ ':' :: (mi ++ ':' :: (se ++ ' ' :: ap)))))
      = some (parseDigits dy,
          '/' :: (yr ++ ' ' :: (hr ++ ':' :: (mi ++ ':' :: (se ++ ' ' :: ap))))) :=
    eatDigits_append 1 2 dy _ hdy (by omega) (by omega) (head_cons_false (by decide) _)
  have e2 : eatChar '/'
        ('/' :: (dy ++ '/' :: (yr ++ ' ' :: (hr ++ ':' :: (mi ++ ':' :: (se ++ ' ' :: ap))))))
      = some (dy ++ '/' :: (yr ++ ' ' :: (hr ++ ':' :: (mi ++ ':' :: (se ++ ' ' :: ap))))) :=
    eatChar_cons _ _
  have e1 : eatDigits 1 2
        (mo ++ '/' :: (dy ++ '/' :: (yr ++ ' ' :: (hr ++ ':' :: (mi ++ ':' :: (se ++ ' ' :: ap))))))
      = some (parseDigits mo,
          '/' :: (dy ++ '/' :: (yr ++ ' ' :: (hr ++ ':' :: (mi ++ ':' :: (se ++ ' ' :: ap)))))) :=
    eatDigits_append 1 2 mo _ hmo (by omega) (by omega) (head_cons_false (by decide) _)
  simp only [matchTSAt, e1, e2, e3, e4, e5, e6, e7, e8, e9, e10, e11, e12, e13,
    Option.some_bind, Option.map_some]
  rfl

theorem tsMatch_spec : ∀ (cs d8 d6 : List Char), tsMatch cs = some (d8, d6) →
    d8.length = 8 ∧ d8.all isDigitC = true ∧ d6.length = 6 ∧ d6.all isDigitC = true := by
  intro cs
  induction cs with
  | nil => intro d8 d6 h; simp [tsMatch] at h
  | cons c rest ih =>
    intro d8 d6 h
    simp only [tsMatch] at h
    split at h
    case isTrue hcond =>
      split at h
      case _ rest2 heq =>
        split at h
        case isTrue hcond2 =>
          rw [Option.some.injEq] at h
          obtain ⟨h1, h2⟩ := Prod.mk.injEq .. |>.mp h
          subst h1
          subst h2
          exact ⟨hcond.2.1, hcond.2.2, hcond2.1, hcond2.2⟩
        case isFalse _ => exact ih d8 d6 h
      case _ => exact ih d8 d6 h
    case isFalse _ => exact ih d8 d6 h

theorem tsMatch_sound : ∀ (cs d8 d6 : List Char), tsMatch cs = some (d8, d6) →
    ∃ pre post, cs = pre ++ '_' :: (d8 ++ '_' :: (d6 ++ post)) := by
  intro cs
  induction cs with
  | nil => intro d8 d6 h; simp [tsMatch] at h
  | cons c rest ih =>
    intro d8 d6 h
    simp only [tsMatch] at h
    split at h
    case isTrue hcond =>
      split at h
      case _ rest2 heq =>
        split at h
        case isTrue hcond2 =>
          rw [Option.some.injEq] at h
          obtain ⟨h1, h2⟩ := Prod.mk.injEq .. |>.mp h
          obtain ⟨hc, -, -⟩ := hcond
          subst hc
          refine ⟨[], rest2.drop 6, ?_⟩
          simp only [List.nil_append, List.cons.injEq, true_and]
          have hr2 : rest2 = d6 ++ rest2.drop 6 := by
            conv_lhs => rw [← List.take_append_drop 6 rest2]
            rw [h2]
          calc rest = rest.take 8 ++ rest.drop 8 := (List.take_append_drop 8 rest).symm
            _ = d8 ++ '_' :: rest2 := by rw [h1, heq]
            _ = d8 ++ '_' :: (d6 ++ rest2.drop 6) := by rw [← hr2]
        case isFalse _ =>
          obtain ⟨pre, post, hp⟩ := ih d8 d6 h
          exact ⟨c :: pre, post, by rw [hp, List.cons_append]⟩
      case _ =>
        obtain ⟨pre, post, hp⟩ := ih d8 d6 h
        exact ⟨c :: pre, post, by rw [hp, List.cons_append]⟩
    case isFalse _ =>
      obtain ⟨pre, post, hp⟩ := ih d8 d6 h
      exact ⟨c :: pre, post, by rw [hp, List.cons_append]⟩

theorem strExt {a b : String} (h : a.data = b.data) : a = b := by
  cases a
  cases b
  exact congrArg String.mk h

theorem dataSlash : ("/" : String).data = ['/'] := rfl

theorem dataColon : (":" : String).data = [':'] := rfl

theorem dataSpace : (" " : String).data = [' '] := rfl

theorem dataPM : ("PM" : String).data = ['P', 'M'] := rfl

theorem dataAM : ("AM" : String).data = ['A', 'M'] := rfl

theorem formatTime12_shape (hours0 : Nat) (mm ss : String) :
    formatTime12 hours0 mm ss
      = String.mk ((Nat.repr (if hours0 % 12 = 0 then 12 else hours0 % 12)).data
          ++ ':' :: (mm.data ++ ':' :: (ss.data
          ++ ' ' :: (if 12 ≤ hours0 then ['P', 'M'] else ['A', 'M'])))) := by
  apply strExt
  by_cases h : 12 ≤ hours0 <;>
    simp [formatTime12, h, strData_append, strData_mk, dataColon, dataSpace, dataPM, dataAM,
      List.append_assoc]

theorem parse_formatTimestampText (d8 d6 : List Char)
    (h8 : d8.length = 8) (a8 : d8.all isDigitC = true)
    (h6 : d6.length = 6) (a6 : d6.all isDigitC = true)
    (hhour : parseDigits (d6.take 2) ≤ 23) :
    parseImageTimestamp (formatTimestampText d8 d6) = some (imageTimeFields d8 d6) := by
  have hmolen : ((d8.drop 4).take 2).length = 2 := by
    simp [List.length_take, List.length_drop, h8]
  have hdylen : ((d8.drop 6).take 2).length = 2 := by
    simp [List.length_take, List.length_drop, h8]
  have hyrlen : (d8.take 4).length = 4 := by
    simp [List.length_take, h8]
  have hmilen : ((d6.drop 2).take 2).length = 2 := by
    simp [List.length_take, List.length_drop, h6]
  have hselen : ((d6.drop 4).take 2).length = 2 := by
    simp [List.length_take, List.length_drop, h6]
  have hmo := all_take _ 2 (all_drop _ 4 a8)
  have hdy := all_take _ 2 (all_drop _ 6 a8)
  have hyr := all_take d8 4 a8
  have hmi := all_take _ 2 (all_drop _ 2 a6)
  have hse := all_take _ 2 (all_drop _ 4 a6)
  have hh1 : 1 ≤ (if parseDigits (d6.take 2) % 12 = 0 then 12
      else parseDigits (d6.take 2) % 12) := by
    split <;> omega
  have hh2 : (if parseDigits (d6.take 2) % 12 = 0 then 12
      else parseDigits (d6.take 2) % 12) ≤ 12 := by
    split <;> omega
  obtain ⟨hrall, hrlen1, hrlen2, hrval⟩ := repr_hour_facts _ hh1 hh2
  have hcv := convert12to24_roundtrip (parseDigits (d6.take 2)) hhour
  by_cases hpm : 12 ≤ parseDigits (d6.take 2)
  · have hdata : (formatTimestampText d8 d6).data
        = (d8.drop 4).take 2 ++ '/' :: ((d8.drop 6).take 2 ++ '/' :: (d8.take 4 ++ ' ' ::
            ((Nat.repr (if parseDigits (d6.take 2) % 12 = 0 then 12
                else parseDigits (d6.take 2) % 12)).data
              ++ ':' :: ((d6.drop 2).take 2 ++ ':' ::
                ((d6.drop 4).take 2 ++ ' ' :: ['P', 'M']))))) := by
      simp [formatTimestampText, formatTime12, hpm, strData_append, strData_mk, dataSlash,
        dataColon, dataSpace, dataPM, List.append_assoc]
    have hmatch := matchTSAt_format ((d8.drop 4).take 2) ((d8.drop 6).take 2) (d8.take 4)
      (Nat.repr (if parseDigits (d6.take 2) % 12 = 0 then 12
        else parseDigits (d6.take 2) % 12)).data
      ((d6.drop 2).take 2) ((d6.drop 4).take 2) ['P', 'M']
      hmo hmolen hdy hdylen hyr hyrlen hrall hrlen1 hrlen2 hmi hmilen hse hselen (Or.inr rfl)
    rw [show (decide ((['P', 'M'] : List Char) = ['P', 'M'])) = true by decide] at hmatch
    have hne : (d8.drop 4).take 2 ++ '/' :: ((d8.drop 6).take 2 ++ '/' ::
        (d8.take 4 ++ ' ' :: ((Nat.repr (if parseDigits (d6.take 2) % 12 = 0 then 12
            else parseDigits (d6.take 2) % 12)).data
          ++ ':' :: ((d6.drop 2).take 2 ++ ':' ::
            ((d6.drop 4).take 2 ++ ' ' :: ['P', 'M']))))) ≠ [] := by
      intro hnil
      have := congrArg List.length hnil
      simp [hmolen] at this
    have hsearch := searchTS_of_matchAt hne hmatch
    rw [← hdata] at hsearch
    simp only [parseImageTimestamp, hsearch, imageTimeFields]
    rw [hrval]
    rw [decide_eq_true hpm] at hcv
    rw [hcv]
  · have hdata : (formatTimestampText d8 d6).data
        = (d8.drop 4).take 2 ++ '/' :: ((d8.drop 6).take 2 ++ '/' :: (d8.take 4 ++ ' ' ::
            ((Nat.repr (if parseDigits (d6.take 2) % 12 = 0 then 12
                else parseDigits (d6.take 2) % 12)).data
              ++ ':' :: ((d6.drop 2).take 2 ++ ':' ::
                ((d6.drop 4).take 2 ++ ' ' :: ['A', 'M']))))) := by
      simp [formatTimestampText, formatTime12, hpm, strData_append, strData_mk, dataSlash,
        dataColon, dataSpace, dataAM, List.append_assoc]
    have hmatch := matchTSAt_format ((d8.drop 4).take 2) ((d8.drop 6).take 2) (d8.take 4)
      (Nat.repr (if parseDigits (d6.take 2) % 12 = 0 then 12
        else parseDigits (d6.take 2) % 12)).data
      ((d6.drop 2).take 2) ((d6.drop 4).take 2) ['A', 'M']
      hmo hmolen hdy hdylen hyr hyrlen hrall hrlen1 hrlen2 hmi hmilen hse hselen (Or.inl rfl)
    rw [show (decide ((['A', 'M'] : List Char) = ['P', 'M'])) = false by decide] at hmatch
    have hne : (d8.drop 4).take 2 ++ '/' :: ((d8.drop 6).take 2 ++ '/' ::
        (d8.take 4 ++ ' ' :: ((Nat.repr (if parseDigits (d6.take 2) % 12 = 0 then 12
            else parseDigits (d6.take 2) % 12)).data
          ++ ':' :: ((d6.drop 2).take 2 ++ ':' ::
            ((d6.drop 4).take 2 ++ ' ' :: ['A', 'M']))))) ≠ [] := by
      intro hnil
      have := congrArg List.length hnil
      simp [hmolen] at this
    have hsearch := searchTS_of_matchAt hne hmatch
    rw [← hdata] at hsearch
    simp only [parseImageTimestamp, hsearch, imageTimeFields]
    rw [hrval]
    rw [decide_eq_false hpm] at hcv
    rw [hcv]

theorem foldl_seg_no_slash : ∀ (B : List Char), '/' ∉ B →
    ∀ init : List Char,
      B.foldl (fun acc c => if c = '/' then [] else acc ++ [c]) init = init ++ B := by
  intro B
  induction B with
  | nil => intro _ init; simp
  | cons b B' ih =>
    intro hB init
    simp only [List.mem_cons, not_or] at hB
    rw [List.foldl_cons, if_neg (fun hh => hB.1 hh.symm), ih hB.2 (init ++ [b])]
    simp

theorem lastSegment_append (dir fin : String) (hfin : '/' ∉ fin.data) :
    lastSegment (dir ++ "/" ++ fin) = fin := by
  have hdata : (dir ++ "/" ++ fin).data = dir.data ++ ('/' :: fin.data) := by
    simp [strData_append, dataSlash, List.append_assoc]
  simp only [lastSegment, hdata]
  rw [List.foldl_append, List.foldl_cons, if_pos rfl, foldl_seg_no_slash fin.data hfin [],
    List.nil_append]

theorem arraysEqual_cons (x y : String) (xs ys : List String) :
    arraysEqual (x :: xs) (y :: ys) = ((x == y) && arraysEqual xs ys) := by
  by_cases hl : xs.length = ys.length
  · simp [arraysEqual, hl]
  · simp [arraysEqual, hl]

theorem arraysEqual_eq_true_iff (arr1 arr2 : List String) :
    arraysEqual arr1 arr2 = true ↔ arr1 = arr2 := by
  induction arr1 generalizing arr2 with
  | nil => cases arr2 <;> simp [arraysEqual]
  | cons x xs ih =>
    cases arr2 with
    | nil => simp [arraysEqual]
    | cons y ys => simp [arraysEqual_cons, ih]

theorem pollStep_inv {s : PollState} (h : PollInv s) (e : PollEv) :
    PollInv (pollStep s e) := by
  obtain ⟨h1, h2⟩ := h
  cases e with
  | trigger =>
    by_cases hf : s.inFlight = true
    · have hstep : pollStep s PollEv.trigger = { s with skipped := s.skipped + 1 } := by
        simp [pollStep, hf]
      rw [hstep]
      exact ⟨h1, h2⟩
    · have ha : s.active = 0 := by
        by_contra hne
        have h1' : s.active = 1 := by omega
        exact hf (h2.mpr h1')
      simp [pollStep, hf, PollInv, ha]
  | complete =>
    by_cases ha : s.active = 0
    · have hstep : pollStep s PollEv.complete = s := by
        simp [pollStep, ha]
      rw [hstep]
      exact ⟨h1, h2⟩
    · have h1' : s.active = 1 := by omega
      simp [pollStep, ha, PollInv, h1']

theorem pollRun_inv (evs : List PollEv) : PollInv (pollRun evs) := by
  have main : ∀ (l : List PollEv) (s : PollState), PollInv s → PollInv (l.foldl pollStep s) := by
    intro l
    induction l with
    | nil => intro s hs; simpa using hs
    | cons e rest ih => intro s hs; exact ih _ (pollStep_inv hs e)
  exact main evs pollInit (by simp [PollInv, pollInit])

/-! ### Claim theorems -/

/-- C1: a camera is classified stale iff the image age `now - capturedAt`
strictly exceeds `3 * P` minutes; staleness is monotone in age; for
`P = 5`, ages 14 and 15 minutes are not stale and age 16 minutes is
stale. -/
theorem c1_staleness (P nowMs capMs : ℚ) :
    (checkForStaleImages P (ageMinutesOf nowMs capMs) = true ↔ nowMs - capMs > 3 * P * 60000)
    ∧ (∀ a1 a2 : ℚ, a1 ≤ a2 → checkForStaleImages P a1 = true → checkForStaleImages P a2 = true)
    ∧ checkForStaleImages 5 14 = false
    ∧ checkForStaleImages 5 15 = false
    ∧ checkForStaleImages 5 16 = true := by
  refine ⟨?_, ?_, ?_, ?_, ?_⟩
  · simp only [checkForStaleImages, ageMinutesOf, decide_eq_true_eq, gt_iff_lt]
    rw [lt_div_iff₀ (by norm_num : (0:ℚ) < 1000 * 60)]
    constructor <;> intro h <;> linarith
  · intro a1 a2 h12 h1
    simp only [checkForStaleImages, decide_eq_true_eq, gt_iff_lt] at h1 ⊢
    linarith
  · simp only [checkForStaleImages, decide_eq_false_iff_not, gt_iff_lt, not_lt]
    norm_num
  · simp only [checkForStaleImages, decide_eq_false_iff_not, gt_iff_lt, not_lt]
    norm_num
  · simp only [checkForStaleImages, decide_eq_true_eq, gt_iff_lt]
    norm_num

theorem c1_staleness_witness :
    checkForStaleImages 5 16 = true ∧ checkForStaleImages 5 (ageMinutesOf 960000 0) = true :=
  ⟨(c1_staleness 5 0 0).2.2.2.2, (c1_staleness 5 960000 0).1.mpr (by norm_num)⟩

/-- C9: the age-display formatter truncates (floor), never rounds: for
non-negative age `m` minutes it renders `{k}m ago` with `k ≤ m < k+1`
when `m < 60`, `{k}h ago` with `k ≤ m/60 < k+1` when `60 ≤ m < 1440`,
and `{k}d ago` with `k ≤ m/1440 < k+1` otherwise. -/
theorem c9_formatTimeAgo (m : ℚ) (_hm : 0 ≤ m) :
    (∀ k : ℤ, m < 60 → (k : ℚ) ≤ m → m < (k : ℚ) + 1 →
        formatTimeAgo m = k.repr ++ "m ago")
    ∧ (∀ k : ℤ, 60 ≤ m → m < 1440 → (k : ℚ) ≤ m / 60 → m / 60 < (k : ℚ) + 1 →
        formatTimeAgo m = k.repr ++ "h ago")
    ∧ (∀ k : ℤ, 1440 ≤ m → (k : ℚ) ≤ m / 1440 → m / 1440 < (k : ℚ) + 1 →
        formatTimeAgo m = k.repr ++ "d ago") := by
  refine ⟨?_, ?_, ?_⟩
  · intro k h60 hk1 hk2
    have hfl : ⌊m⌋ = k := Int.floor_eq_iff.mpr ⟨hk1, by exact_mod_cast hk2⟩
    rw [formatTimeAgo, if_pos h60, hfl]
  · intro k h60 h1440 hk1 hk2
    have hfl : ⌊m / 60⌋ = k := Int.floor_eq_iff.mpr ⟨hk1, by exact_mod_cast hk2⟩
    rw [formatTimeAgo, if_neg (by linarith), if_pos h1440, hfl]
  · intro k h1440 hk1 hk2
    have hfl : ⌊m / 1440⌋ = k := Int.floor_eq_iff.mpr ⟨hk1, by exact_mod_cast hk2⟩
    rw [formatTimeAgo, if_neg (by linarith), if_neg (by linarith), hfl]

theorem c9_formatTimeAgo_witness :
    formatTimeAgo 30 = "30m ago" ∧ formatTimeAgo 90 = "1h ago" ∧ formatTimeAgo 3000 = "2d ago" := by
  refine ⟨?_, ?_, ?_⟩
  · exact ((c9_formatTimeAgo 30 (by norm_num)).1 30 (by norm_num) (by norm_num)
      (by norm_num)).trans (by decide)
  · exact ((c9_formatTimeAgo 90 (by norm_num)).2.1 1 (by norm_num) (by norm_num) (by norm_num)
      (by norm_num)).trans (by decide)
  · exact ((c9_formatTimeAgo 3000 (by norm_num)).2.2 2 (by norm_num) (by norm_num)
      (by norm_num)).trans (by decide)

/-- C3: the one-second countdown tick renders `Hh Mm Ss left` when at
least one full hour remains, `Mm Ss left` when less than an hour but at
least one full minute remains, `Ss left` otherwise; 3661 s remaining
renders "1h 1m 1s left", 61 s renders "1m 1s left", 5 s renders
"5s left"; zero or negative remaining time triggers resynchronization
(`location.reload()`) and renders no countdown text. -/
theorem c3_countdown :
    (∀ expiryMs nowMs : Int, expiryMs - nowMs ≤ 0 →
        updateSnoozeCountdown (snoozeDiffMs expiryMs nowMs) = CountdownAction.resync)
    ∧ updateSnoozeCountdown (snoozeDiffMs 3661000 0) = CountdownAction.render "1h 1m 1s left"
    ∧ updateSnoozeCountdown (snoozeDiffMs 61000 0) = CountdownAction.render "1m 1s left"
    ∧ updateSnoozeCountdown (snoozeDiffMs 5000 0) = CountdownAction.render "5s left"
    ∧ (∀ d : Int, 0 < d → 3600 ≤ d.toNat / 1000 →
        updateSnoozeCountdown d = CountdownAction.render
          ((d.toNat / 1000 / 3600).repr ++ "h " ++ ((d.toNat / 1000 % 3600) / 60).repr ++ "m "
            ++ (d.toNat / 1000 % 60).repr ++ "s left"))
    ∧ (∀ d : Int, 0 < d → 60 ≤ d.toNat / 1000 → d.toNat / 1000 < 3600 →
        updateSnoozeCountdown d = CountdownAction.render
          (((d.toNat / 1000 % 3600) / 60).repr ++ "m " ++ (d.toNat / 1000 % 60).repr ++ "s left"))
    ∧ (∀ d : Int, 0 < d → d.toNat / 1000 < 60 →
        updateSnoozeCountdown d = CountdownAction.render ((d.toNat / 1000 % 60).repr ++ "s left")) := by
  refine ⟨?_, by decide, by decide, by decide, ?_, ?_, ?_⟩
  · intro e n h
    simp only [snoozeDiffMs] at *
    rw [updateSnoozeCountdown, if_pos h]
  · intro d hd h36
    rw [updateSnoozeCountdown, if_neg (by omega)]
    simp only []
    rw [if_pos (by omega : 0 < d.toNat / 1000 / 3600)]
  · intro d hd h60 h36
    rw [updateSnoozeCountdown, if_neg (by omega)]
    simp only []
    rw [if_neg (by omega : ¬ 0 < d.toNat / 1000 / 3600),
      if_pos (by omega : 0 < d.toNat / 1000 % 3600 / 60)]
  · intro d hd h60
    rw [updateSnoozeCountdown, if_neg (by omega)]
    simp only []
    rw [if_neg (by omega : ¬ 0 < d.toNat / 1000 / 3600),
      if_neg (by omega : ¬ 0 < d.toNat / 1000 % 3600 / 60)]

theorem c3_countdown_witness :
    updateSnoozeCountdown (snoozeDiffMs 0 5) = CountdownAction.resync ∧
    updateSnoozeCountdown 3661000 = CountdownAction.render "1h 1m 1s left" :=
  ⟨c3_countdown.1 0 5 (by decide),
   (c3_countdown.2.2.2.2.1 3661000 (by decide) (by decide)).trans (by decide)⟩

/-- C4: at most one camera refresh cycle is outstanding at any time, for
every interleaving of timer firings and network completions; a trigger
arriving while a refresh is in flight is a pure skip (only the skip
counter changes: the poll is neither run nor queued). -/
theorem c4_pollOverlapGuard (evs : List PollEv) :
    (pollRun evs).active ≤ 1
    ∧ ((pollRun evs).inFlight = true →
        pollStep (pollRun evs) PollEv.trigger
          = { pollRun evs with skipped := (pollRun evs).skipped + 1 }) := by
  refine ⟨(pollRun_inv evs).1, ?_⟩
  intro h
  simp [pollStep, h]

theorem c4_pollOverlapGuard_witness :
    pollStep (pollRun [PollEv.trigger]) PollEv.trigger
      = { pollRun [PollEv.trigger] with skipped := (pollRun [PollEv.trigger]).skipped + 1 } :=
  (c4_pollOverlapGuard [PollEv.trigger]).2 (by decide)

/-- C5: the reconciler reports "no change" iff the previous and new image
path lists are equal, and it is idempotent: feeding it the same list
twice in a row makes the second call a no-op. -/
theorem c5_reconcilerIdempotent (newImages prev : List String) :
    ((updateCameraImages newImages prev).1 = false ↔ newImages = prev)
    ∧ (updateCameraImages newImages (updateCameraImages newImages prev).2).1 = false := by
  by_cases h : arraysEqual newImages prev = true
  · have he : newImages = prev := (arraysEqual_eq_true_iff _ _).mp h
    constructor
    · simpa [updateCameraImages, h] using he
    · simp [updateCameraImages, h]
  · have hne : ¬ newImages = prev := fun he => h ((arraysEqual_eq_true_iff _ _).mpr he)
    have hrefl : arraysEqual newImages newImages = true := (arraysEqual_eq_true_iff _ _).mpr rfl
    constructor
    · simpa [updateCameraImages, h] using hne
    · simp [updateCameraImages, h, hrefl]

/-- C8: provided the preset options carry positive durations (the preset
markup is not part of this excerpt; a selected preset is `some v` with
`0 < v`), `applySnooze`/`applySnoozeAll` block submission (no request
issued) exactly when no preset is selected and the custom input does not
parse to an integer strictly greater than zero, and any request actually
issued carries a strictly positive `duration_minutes`. -/
theorem c8_snoozeDurationGuard (selected customParsed : Option Int)
    (hsel : ∀ v, selected = some v → 0 < v) :
    (snoozeDurationOf selected customParsed = none
      ↔ selected = none ∧ ∀ cv, customParsed = some cv → cv ≤ 0)
    ∧ (∀ d, snoozeDurationOf selected customParsed = some d → 0 < d) := by
  rcases selected with _ | v
  · rcases customParsed with _ | cv
    · have hval : snoozeDurationOf none none = none := by
        simp [snoozeDurationOf, jsTruthy]
      rw [hval]
      constructor
      · constructor
        · intro _
          exact ⟨rfl, by intro cv h; exact Option.noConfusion h⟩
        · intro _; rfl
      · intro d hd; exact Option.noConfusion hd
    · by_cases hcv : 0 < cv
      · have hne : ¬ cv = 0 := by omega
        have hval : snoozeDurationOf none (some cv) = some cv := by
          simp [snoozeDurationOf, jsTruthy, hcv, hne]
        rw [hval]
        constructor
        · constructor
          · intro h; exact Option.noConfusion h
          · rintro ⟨-, hall⟩
            have := hall cv rfl
            omega
        · intro d hd
          injection hd with hd'
          omega
      · have hval : snoozeDurationOf none (some cv) = none := by
          simp [snoozeDurationOf, jsTruthy, hcv]
        rw [hval]
        constructor
        · constructor
          · intro _
            refine ⟨rfl, ?_⟩
            intro cv' h'
            injection h' with h''
            omega
          · intro _; rfl
        · intro d hd; exact Option.noConfusion hd
  · have hv : 0 < v := hsel v rfl
    have hne : ¬ v = 0 := by omega
    have hval : snoozeDurationOf (some v) customParsed = some v := by
      simp [snoozeDurationOf, jsTruthy, hne]
    rw [hval]
    constructor
    · constructor
      · intro h; exact Option.noConfusion h
      · rintro ⟨h, -⟩; exact Option.noConfusion h
    · intro d hd
      injection hd with hd'
      omega

theorem c8_snoozeDurationGuard_witness : snoozeDurationOf none (some 0) = none :=
  (c8_snoozeDurationGuard none (some 0) (fun _ h => Option.noConfusion h)).1.mpr
    ⟨rfl, fun _ h => by injection h with h'; omega⟩

/-- C10 (counterexample to the claim as stated): an invocation of
`refreshCameras` that hits the in-flight guard (flag already set) exits
without resetting the flag to false, so not literally every invocation
resets the flag on every exit path. -/
theorem c10_counterexample : (refreshCameras true FetchOutcome.reject).2 ≠ false := by decide

/-- C10 (amended): every invocation of `refreshCameras` that passes the
in-flight guard resets `refreshInProgress` to false on every exit path
(fetch rejection, non-2xx response, body-reported failure, success); an
invocation can exit with the flag set only when the flag was already set
on entry (the guard-skip early return), so a failed or aborted refresh
cycle never leaves the guard permanently set. -/
theorem c10_flagCleared (flag0 : Bool) (o : FetchOutcome) :
    (flag0 = false → (refreshCameras flag0 o).2 = false)
    ∧ ((refreshCameras flag0 o).2 = true → flag0 = true) := by
  cases flag0 <;> cases o <;> simp [refreshCameras, tryRefreshBody]

theorem c10_flagCleared_witness : (refreshCameras false FetchOutcome.reject).2 = false :=
  (c10_flagCleared false FetchOutcome.reject).1 rfl

/-- C2: for a filename from which the `_(\d{8})_(\d{6})` extraction yields
capture groups `d8`, `d6` encoding a valid time (hour field at most 23),
formatting renders the date as MM/DD/YYYY and a 12-hour clock time with
the correct AM/PM boundary (hour 00 → `12:MM:SS AM`, hour 12 →
`12:MM:SS PM`, hour 13 → `1:MM:SS PM`), and `parseImageTimestamp` on the
formatted text recovers exactly the calendar timestamp
`Date(year, month-1, day, hour, minute, second)` of the filename. -/
theorem c2_timestampRoundTrip (filename : String) (d8 d6 : List Char)
    (hm : tsMatch filename.data = some (d8, d6))
    (hhour : parseDigits (d6.take 2) ≤ 23) :
    parseImageTimestamp (updateImageTimestamp filename) = some (imageTimeFields d8 d6)
    ∧ (∀ minutes seconds : String,
        formatTime12 0 minutes seconds = "12:" ++ minutes ++ ":" ++ seconds ++ " AM")
    ∧ (∀ minutes seconds : String,
        formatTime12 12 minutes seconds = "12:" ++ minutes ++ ":" ++ seconds ++ " PM")
    ∧ (∀ minutes seconds : String,
        formatTime12 13 minutes seconds = "1:" ++ minutes ++ ":" ++ seconds ++ " PM") := by
  obtain ⟨h8, a8, h6, a6⟩ := tsMatch_spec _ _ _ hm
  refine ⟨?_, ?_, ?_, ?_⟩
  · have hup : updateImageTimestamp filename = formatTimestampText d8 d6 := by
      simp [updateImageTimestamp, hm]
    rw [hup]
    exact parse_formatTimestampText d8 d6 h8 a8 h6 a6 hhour
  · intro minutes seconds
    apply strExt
    rw [formatTime12_shape]
    simp [strData_append, strData_mk, dataColon, List.append_assoc,
      show (Nat.repr 12).data = ['1', '2'] from rfl,
      show ("12:" : String).data = ['1', '2', ':'] from rfl,
      show (" AM" : String).data = [' ', 'A', 'M'] from rfl]
  · intro minutes seconds
    apply strExt
    rw [formatTime12_shape]
    simp [strData_append, strData_mk, dataColon, List.append_assoc,
      show (Nat.repr 12).data = ['1', '2'] from rfl,
      show ("12:" : String).data = ['1', '2', ':'] from rfl,
      show (" PM" : String).data = [' ', 'P', 'M'] from rfl]
  · intro minutes seconds
    apply strExt
    rw [formatTime12_shape]
    simp [strData_append, strData_mk, dataColon, List.append_assoc,
      show (Nat.repr 1).data = ['1'] from rfl,
      show ("1:" : String).data = ['1', ':'] from rfl,
      show (" PM" : String).data = [' ', 'P', 'M'] from rfl]

theorem c2_timestampRoundTrip_witness :
    parseImageTimestamp (updateImageTimestamp "cam_20240105_133045.jpg")
      = some (imageTimeFields "20240105".data "133045".data) :=
  (c2_timestampRoundTrip "cam_20240105_133045.jpg" "20240105".data "133045".data
    (by decide) (by decide)).1

/-- C6: every filename either contains a substring of the form
`'_'`, eight digits, `'_'`, six digits — or timestamp extraction renders
the placeholder "Unknown time".  (`updateImageTimestamp` is a total
function: no input throws.) -/
theorem c6_malformedPlaceholder (filename : String) :
    (∃ pre d8 d6 post : List Char,
        filename.data = pre ++ '_' :: (d8 ++ '_' :: (d6 ++ post))
        ∧ d8.length = 8 ∧ d8.all isDigitC = true
        ∧ d6.length = 6 ∧ d6.all isDigitC = true)
    ∨ updateImageTimestamp filename = "Unknown time" := by
  cases h : tsMatch filename.data with
  | none =>
    right
    simp [updateImageTimestamp, h]
  | some p =>
    left
    obtain ⟨d8, d6⟩ := p
    obtain ⟨pre, post, hp⟩ := tsMatch_sound _ _ _ h
    obtain ⟨h8, a8, h6, a6⟩ := tsMatch_spec _ _ _ h
    exact ⟨pre, d8, d6, post, hp, h8, a8, h6, a6⟩

/-- C7 (counterexample to the claim as stated): on the program's primary
extraction routes the whole path, not only its final segment, is matched:
`dataset.filename` takes priority over the `src` split (camera.js lines
39, 113, 136) and carries the raw backend path (camera-refresh.js line
298), and camera-refresh.js line 333 passes `camera.images[0]` directly
to `updateImageTimestamp`.  For the slash-containing path
`x_20240101_120000/pic.jpg`, extraction on those routes finds the
timestamp in the NON-final segment and renders it, while the final
segment alone holds no timestamp — so a timestamp-shaped substring in a
non-final segment does affect the extracted timestamp. -/
theorem c7_counterexample :
    updateImageTimestamp "x_20240101_120000/pic.jpg" = "01/01/2024 12:00:00 PM"
    ∧ tsMatch (lastSegment "x_20240101_120000/pic.jpg").data = none := by decide

/-- C7 (amended): only on the fallback route — `dataset.filename` absent
or empty, extraction from `img.src` via `src.split('/').pop()` — is the
final path segment alone used for the `_(\d{8})_(\d{6})` match, and
there a timestamp-shaped substring in a non-final segment cannot affect
the result; on the preferred route the non-empty raw `dataset.filename`
path (likewise the direct `updateImageTimestamp(…, camera.images[0])`
call) is used whole, independent of the `src`, so its non-final segments
are matched too. -/
theorem c7_segmentRoutes (dir fin : String) (hfin : '/' ∉ fin.data) :
    extractTimestampFromSrc (dir ++ "/" ++ fin) = tsMatch fin.data
    ∧ filenameForTimestamp none (dir ++ "/" ++ fin) = fin
    ∧ (∀ f : String, f.data ≠ [] →
        filenameForTimestamp (some f) (dir ++ "/" ++ fin) = f
        ∧ updateImageTimestamp (filenameForTimestamp (some f) (dir ++ "/" ++ fin))
            = updateImageTimestamp f) := by
  have h := lastSegment_append dir fin hfin
  refine ⟨by simp [extractTimestampFromSrc, h], by simp [filenameForTimestamp, h], ?_⟩
  intro f hf
  have hsel : filenameForTimestamp (some f) (dir ++ "/" ++ fin) = f := by
    simp [filenameForTimestamp, hf]
  exact ⟨hsel, by rw [hsel]⟩

theorem c7_segmentRoutes_witness :
    extractTimestampFromSrc "a_20240101_120000/pic.jpg" = tsMatch "pic.jpg".data
    ∧ filenameForTimestamp (some "x_20240101_120000/pic.jpg") ("a" ++ "/" ++ "b.jpg")
        = "x_20240101_120000/pic.jpg" :=
  ⟨(c7_segmentRoutes "a_20240101_120000" "pic.jpg" (by decide)).1,
   ((c7_segmentRoutes "a" "b.jpg" (by decide)).2.2 "x_20240101_120000/pic.jpg" (by decide)).1⟩

end Blink
